import Mathlib

/-!
Verification of the relative-pointer library (`rel-ptr`).

The embedding models a 64-bit platform: byte addresses are natural numbers
below `2 ^ 64`, the native signed word (`isize`) is modelled by integers in
`[-2 ^ 63, 2 ^ 63 - 1]`, and the cast chain `a as usize as isize` is the
reinterpretation of an address as a signed machine word.

The six zeroable offset widths (`i8`, `i16`, `i32`, `i64`, `i128`, `isize`) and
their non-zero counterparts are generated in the source by one macro each
(`impl_delta_zeroable` in `src/lib.rs`, `impl_delta_nonzero` in
`src/nightly.rs`); the embedding mirrors this as one function parameterised by
the width data the macro substitutes (byte size, `min_value`, `max_value`).

The `Delta`, `Nullable` and `MetaData` trait declarations and the
`IntegerDeltaError` type live in modules (`traits.rs`, `error.rs`) whose files
are not part of the sources at hand; the error constructors are taken verbatim
from their use sites in `src/lib.rs` and `src/nightly.rs`, and the `MetaData`
decompose/compose operations for ordinary pointees are modelled from the spec
(see the doc comments below).
-/

namespace RelPtrSpec

/-- `size_of::<isize>()` on the modelled 64-bit platform. -/
def wordBytes : Nat := 8

/-- `isize::min_value()` on the modelled 64-bit platform. -/
def isizeMin : Int := -(2 ^ 63)

/-- `isize::max_value()` on the modelled 64-bit platform. -/
def isizeMax : Int := 2 ^ 63 - 1

/-- The cast chain `a as usize as _` (to `isize`) applied to a byte address
`n < 2 ^ 64`: reinterpret the unsigned machine word as a signed one. -/
def asIsize (n : Nat) : Int :=
  if n < 2 ^ 63 then (n : Int) else (n : Int) - 2 ^ 64

/-- `isize::checked_sub(x, y)`: the exact difference when it is representable
in the native signed word, `none` on overflow. -/
def checkedSub (x y : Int) : Option Int :=
  if isizeMin ≤ x - y ∧ x - y ≤ isizeMax then some (x - y) else none

/-- The payload of `IntegerDeltaError` (constructors taken from the use sites
in `src/lib.rs` and `src/nightly.rs`): `Sub` carries the two addresses of an
overflowing native-word subtraction, `Conversion` carries a difference that
does not fit the chosen narrow width, `InvalidNonZero` marks a zero delta
rejected by the non-zero offset types. -/
inductive IntegerDeltaErrorImpl : Type
  | Sub : Nat → Nat → IntegerDeltaErrorImpl
  | Conversion : Int → IntegerDeltaErrorImpl
  | InvalidNonZero : IntegerDeltaErrorImpl
deriving DecidableEq, Repr

/-- The public error newtype `IntegerDeltaError(IntegerDeltaErrorImpl)`. -/
structure IntegerDeltaError : Type where
  val : IntegerDeltaErrorImpl
deriving DecidableEq, Repr

/-- The width data the `impl_delta_zeroable!` / `impl_delta_nonzero!` macros
substitute for each offset type: `size_of::<Self>()`, `Self::min_value()`,
`Self::max_value()`. -/
structure IntTy : Type where
  bytes : Nat
  min : Int
  max : Int
deriving DecidableEq, Repr

/-- The offset type `i8`. -/
def i8 : IntTy := ⟨1, -(2 ^ 7), 2 ^ 7 - 1⟩

/-- The offset type `i16`. -/
def i16 : IntTy := ⟨2, -(2 ^ 15), 2 ^ 15 - 1⟩

/-- The offset type `i32`. -/
def i32 : IntTy := ⟨4, -(2 ^ 31), 2 ^ 31 - 1⟩

/-- The offset type `i64`. -/
def i64 : IntTy := ⟨8, -(2 ^ 63), 2 ^ 63 - 1⟩

/-- The offset type `i128`. -/
def i128 : IntTy := ⟨16, -(2 ^ 127), 2 ^ 127 - 1⟩

/-- The offset type `isize` (64-bit platform). -/
def isize : IntTy := ⟨8, isizeMin, isizeMax⟩

namespace Delta

/-- `<$type as Delta>::sub(a, b)` from `impl_delta_zeroable!` in `src/lib.rs`:
native-word checked subtraction first (`Sub` error on overflow), then, for
widths narrower than the native word, the range check against the width's
`min_value`/`max_value` (`Conversion` error when out of range), otherwise the
losslessly narrowed difference. -/
def sub (ty : IntTy) (a b : Nat) : Except IntegerDeltaError Int :=
  match checkedSub (asIsize a) (asIsize b) with
  | none => .error ⟨.Sub a b⟩
  | some del =>
    if ty.bytes < wordBytes ∧ (ty.min > del ∨ ty.max < del) then
      .error ⟨.Conversion del⟩
    else
      .ok del

/-- `<NonZero$type as Delta>::sub(a, b)` from `impl_delta_nonzero!` in
`src/nightly.rs`: as the zeroable variant, but a computed delta of exactly
zero is rejected with `InvalidNonZero` before the width range check. -/
def subNonZero (ty : IntTy) (a b : Nat) : Except IntegerDeltaError Int :=
  match checkedSub (asIsize a) (asIsize b) with
  | none => .error ⟨.Sub a b⟩
  | some del =>
    if del = 0 then .error ⟨.InvalidNonZero⟩
    else if ty.bytes < wordBytes ∧ (ty.min > del ∨ ty.max < del) then
      .error ⟨.Conversion del⟩
    else
      .ok del

/-- `Delta::add(self, a)`: `<*const u8>::offset(a, self as isize)`, i.e. the
stored offset applied to the base address as a signed byte displacement, in
the `2 ^ 64`-byte address space. -/
def add (d : Int) (a : Nat) : Nat := (((a : Int) + d) % 2 ^ 64).toNat

end Delta

/-- `<$type as Nullable>::NULL = 0` from `impl_delta_zeroable!`. -/
def NULL : Int := 0

/-- The relative pointer `RelPtr<T, I>(I, T::Data, PhantomData<*mut T>)`.
`offset` is the stored field `.0`; `meta` is the stored descriptor field `.1`
of the pointee's `MetaData::Data` type `D`. -/
structure RelPtr (D : Type) : Type where
  offset : Int
  meta : D
deriving DecidableEq, Repr

namespace RelPtr

variable {D : Type}

/-- `RelPtr::null()`: offset `I::NULL`, default descriptor. -/
def null [Inhabited D] : RelPtr D := ⟨NULL, default⟩

/-- `RelPtr::is_null()`: `self.0 == I::NULL`. -/
def is_null (p : RelPtr D) : Bool := p.offset == NULL

/-- `RelPtr::set(&mut self, value)`. Modelled from the spec: `MetaData`
(declared in the absent `traits.rs`) decomposes a pointee reference into its
raw byte address and its descriptor, so a pointee reference is modelled as the
pair `(valueAddr, valueMeta)`. `selfAddr` is `self as *mut Self as *const u8`.
The `?` on `I::sub` returns before either field is written, so on error the
prior state `p` is returned unchanged; on success both fields are updated. -/
def set (ty : IntTy) (p : RelPtr D) (selfAddr valueAddr : Nat) (valueMeta : D) :
    RelPtr D × Except IntegerDeltaError Unit :=
  match Delta.sub ty valueAddr selfAddr with
  | .error e => (p, .error e)
  | .ok d => (⟨d, valueMeta⟩, .ok ())

/-- `RelPtr::as_raw_unchecked()`: `T::compose(self.0.add(self as _) as _, self.1)`.
Modelled from the spec: `MetaData::compose` recombines a raw byte address with
the stored descriptor into a typed pointer, modelled as the pair of both. -/
def as_raw_unchecked (p : RelPtr D) (selfAddr : Nat) : Nat × D :=
  (Delta.add p.offset selfAddr, p.meta)

/-- `RelPtr::as_raw()`: on a null relative pointer,
`T::compose(ptr::null_mut(), T::Data::default())` (modelled from the spec:
composing the null raw address, address `0`, with the default descriptor);
otherwise `as_raw_unchecked`. -/
def as_raw [Inhabited D] (p : RelPtr D) (selfAddr : Nat) : Nat × D :=
  if p.is_null then (0, default) else p.as_raw_unchecked selfAddr

/-- `RelPtr::as_ref()`: `<*const T>::as_ref(self.as_raw())`, which is `None`
exactly when the raw pointer is null (address `0`). -/
def as_ref [Inhabited D] (p : RelPtr D) (selfAddr : Nat) : Option (Nat × D) :=
  let r := p.as_raw selfAddr
  if r.1 = 0 then none else some r

/-- `<RelPtr as Clone>::clone(&self)`: `*self`, a field-for-field copy. -/
def clone (p : RelPtr D) : RelPtr D := p

/-- `<RelPtr as PartialEq>::eq(&self, other)`: `std::ptr::eq(self, other)`,
comparing the storage addresses of the two compared values. A reference to a
`RelPtr` is modelled as the pair of its storage address and its value. -/
def eq (x y : Nat × RelPtr D) : Bool := x.1 == y.1

end RelPtr

/-- A successful checked subtraction returns exactly the native-word signed
difference of the two reinterpreted addresses. -/
theorem sub_ok_val (ty : IntTy) (a b : Nat) (d : Int) (h : Delta.sub ty a b = .ok d) :
    d = asIsize a - asIsize b := by
  unfold Delta.sub checkedSub at h
  split at h
  · simp at h
  · rename_i del heq
    split at heq
    · simp only [Option.some.injEq] at heq
      split at h
      · simp at h
      · simp only [Except.ok.injEq] at h
        omega
    · simp at heq

/-- Applying the native-word signed difference of two addresses to the
subtrahend recovers the minuend, for addresses in the 64-bit address space. -/
theorem add_asIsize (a b : Nat) (ha : a < 2 ^ 64) :
    Delta.add (asIsize a - asIsize b) b = a := by
  unfold Delta.add asIsize
  split <;> split <;> omega

/-- For addresses below `2 ^ 63` the checked subtraction never overflows and
returns the plain difference. -/
theorem checkedSub_small (a b : Nat) (ha : a < 2 ^ 63) (hb : b < 2 ^ 63) :
    checkedSub (asIsize a) (asIsize b) = some ((a : Int) - (b : Int)) := by
  unfold checkedSub asIsize isizeMin isizeMax
  rw [if_pos ha, if_pos hb, if_pos (by omega)]

/-- Reduction of `Delta.sub` when the native-word subtraction overflows. -/
theorem sub_none (ty : IntTy) (a b : Nat)
    (h : checkedSub (asIsize a) (asIsize b) = none) :
    Delta.sub ty a b = .error ⟨.Sub a b⟩ := by
  unfold Delta.sub
  rw [h]

/-- Reduction of `Delta.sub` when the native-word subtraction succeeds. -/
theorem sub_some (ty : IntTy) (a b : Nat) (del : Int)
    (h : checkedSub (asIsize a) (asIsize b) = some del) :
    Delta.sub ty a b =
      if ty.bytes < wordBytes ∧ (ty.min > del ∨ ty.max < del) then
        .error ⟨.Conversion del⟩
      else
        .ok del := by
  unfold Delta.sub
  rw [h]

/-- Reduction of `Delta.subNonZero` when the native-word subtraction
overflows. -/
theorem subNonZero_none (ty : IntTy) (a b : Nat)
    (h : checkedSub (asIsize a) (asIsize b) = none) :
    Delta.subNonZero ty a b = .error ⟨.Sub a b⟩ := by
  unfold Delta.subNonZero
  rw [h]

/-- Reduction of `Delta.subNonZero` when the native-word subtraction
succeeds. -/
theorem subNonZero_some (ty : IntTy) (a b : Nat) (del : Int)
    (h : checkedSub (asIsize a) (asIsize b) = some del) :
    Delta.subNonZero ty a b =
      if del = 0 then .error ⟨.InvalidNonZero⟩
      else if ty.bytes < wordBytes ∧ (ty.min > del ∨ ty.max < del) then
        .error ⟨.Conversion del⟩
      else
        .ok del := by
  unfold Delta.subNonZero
  rw [h]

/-- C1: for every offset width and byte addresses `a`, `b` in the 64-bit
address space, `Delta::sub(a, b) = Ok(d)` implies `d.add(b) = a`; consequently
a `RelPtr` stored at address `b` on which `set` of a pointee at address `a`
succeeded dereferences via `as_raw_unchecked` to a pointer whose address is
exactly `a`. -/
theorem C1_sub_add_round_trip (ty : IntTy) (a b : Nat)
    (ha : a < 2 ^ 64) (hb : b < 2 ^ 64) :
    (∀ d : Int, Delta.sub ty a b = .ok d → Delta.add d b = a) ∧
    ∀ (D : Type) (p p' : RelPtr D) (m : D),
      RelPtr.set ty p b a m = (p', Except.ok ()) →
        (p'.as_raw_unchecked b).1 = a := by
  have key : ∀ d : Int, Delta.sub ty a b = .ok d → Delta.add d b = a := by
    intro d h
    rw [sub_ok_val ty a b d h]
    exact add_asIsize a b ha
  refine ⟨key, ?_⟩
  intro D p p' m h
  unfold RelPtr.set at h
  cases hs : Delta.sub ty a b with
  | error e => rw [hs] at h; simp at h
  | ok d =>
    rw [hs] at h
    simp only [Prod.mk.injEq] at h
    obtain ⟨hp', -⟩ := h
    subst hp'
    unfold RelPtr.as_raw_unchecked
    exact key d hs

/-- Witness for C1 at `ty = i8`, pointee address `10`, pointer address `5`. -/
theorem C1_witness :
    Delta.add 5 5 = 10 ∧
    ((RelPtr.mk 5 (0 : Nat)).as_raw_unchecked 5).1 = 10 :=
  ⟨(C1_sub_add_round_trip i8 10 5 (by norm_num) (by norm_num)).1 5 rfl,
   (C1_sub_add_round_trip i8 10 5 (by norm_num) (by norm_num)).2 Nat
     RelPtr.null ⟨5, 0⟩ 0 rfl⟩

/-- C2: `as_raw_unchecked` depends only on the current storage address, the
stored offset and the stored descriptor — it is the composition of
`self_address + offset` with the descriptor; hence relocating pointer and
pointee together, keeping the stored byte distance, dereferences at any new
base address `s'` to `s' + offset`. -/
theorem C2_as_raw_unchecked_relocation (D : Type) (p : RelPtr D) (s : Nat) :
    p.as_raw_unchecked s = (Delta.add p.offset s, p.meta) ∧
    ∀ s' : Nat, 0 ≤ (s' : Int) + p.offset → (s' : Int) + p.offset < 2 ^ 64 →
      ((p.as_raw_unchecked s').1 : Int) = (s' : Int) + p.offset := by
  refine ⟨rfl, ?_⟩
  intro s' h0 h1
  unfold RelPtr.as_raw_unchecked Delta.add
  simp only
  omega

/-- Witness for C2 at offset `2`, old base `7`, new base `40`. -/
theorem C2_witness :
    (RelPtr.mk 2 (0 : Nat)).as_raw_unchecked 7 = (Delta.add 2 7, 0) ∧
    (((RelPtr.mk 2 (0 : Nat)).as_raw_unchecked 40).1 : Int) = (40 : Int) + 2 :=
  ⟨(C2_as_raw_unchecked_relocation Nat ⟨2, 0⟩ 7).1,
   (C2_as_raw_unchecked_relocation Nat ⟨2, 0⟩ 40).2 40 (by norm_num) (by norm_num)⟩

/-- C3: `set` is both-or-neither — when the checked subtraction fails, `set`
returns the Delta error and both stored fields keep their prior values; when
it succeeds, `set` returns `Ok(())` and the offset is the computed delta and
the descriptor is the pointee's decomposed metadata. -/
theorem C3_set_atomic (ty : IntTy) (D : Type) (p : RelPtr D) (s va : Nat) (m : D) :
    (∀ e : IntegerDeltaError, Delta.sub ty va s = .error e →
      RelPtr.set ty p s va m = (p, Except.error e)) ∧
    ∀ d : Int, Delta.sub ty va s = .ok d →
      RelPtr.set ty p s va m = (⟨d, m⟩, Except.ok ()) := by
  constructor
  · intro e h
    unfold RelPtr.set
    rw [h]
  · intro d h
    unfold RelPtr.set
    rw [h]

/-- Witness for C3: a `Conversion` failure at distance `200` from an `i8`
pointer leaves the prior state `⟨3, 9⟩` intact, and a success at distance `5`
updates both fields. -/
theorem C3_witness :
    RelPtr.set i8 (RelPtr.mk 3 (9 : Nat)) 0 200 1 =
      (RelPtr.mk 3 9, Except.error ⟨.Conversion 200⟩) ∧
    RelPtr.set i8 (RelPtr.mk 3 (9 : Nat)) 0 5 1 =
      (RelPtr.mk 5 1, Except.ok ()) :=
  ⟨(C3_set_atomic i8 Nat ⟨3, 9⟩ 0 200 1).1 ⟨.Conversion 200⟩ rfl,
   (C3_set_atomic i8 Nat ⟨3, 9⟩ 0 5 1).2 5 rfl⟩

/-- C4: `null()` has offset equal to the sentinel `0` and the default
descriptor, `is_null()` holds on it, and the checked dereference path on it
yields the absent result: `as_ref` is `none` and `as_raw` is the null raw
pointer (address `0`). -/
theorem C4_null_sentinel (D : Type) [Inhabited D] (s : Nat) :
    (RelPtr.null : RelPtr D).offset = NULL ∧ NULL = 0 ∧
    (RelPtr.null : RelPtr D).meta = default ∧
    (RelPtr.null : RelPtr D).is_null = true ∧
    (RelPtr.null : RelPtr D).as_raw s = (0, default) ∧
    (RelPtr.null : RelPtr D).as_ref s = none := by
  refine ⟨rfl, rfl, rfl, rfl, ?_, ?_⟩ <;>
    simp [RelPtr.as_raw, RelPtr.as_ref, RelPtr.is_null, RelPtr.null, NULL]

/-- C5: the checked subtraction follows the staged algorithm: native-word
checked subtraction first, failing with the `Sub` error carrying both
addresses; then, only when the width is strictly narrower than the native
word, the range check against that width's `min_value`/`max_value`, failing
with `Conversion` carrying the out-of-range value; otherwise the losslessly
narrowed difference. -/
theorem C5_sub_algorithm (ty : IntTy)
    (hty : ty = i8 ∨ ty = i16 ∨ ty = i32 ∨ ty = i64 ∨ ty = i128 ∨ ty = isize)
    (a b : Nat) :
    (checkedSub (asIsize a) (asIsize b) = none →
      Delta.sub ty a b = .error ⟨.Sub a b⟩) ∧
    ∀ del : Int, checkedSub (asIsize a) (asIsize b) = some del →
      del = asIsize a - asIsize b ∧
      (ty.bytes < wordBytes →
        ((del < ty.min ∨ ty.max < del) →
          Delta.sub ty a b = .error ⟨.Conversion del⟩) ∧
        (ty.min ≤ del → del ≤ ty.max → Delta.sub ty a b = .ok del)) ∧
      (¬ ty.bytes < wordBytes → Delta.sub ty a b = .ok del) := by
  clear hty
  constructor
  · exact sub_none ty a b
  · intro del h
    have hval : del = asIsize a - asIsize b := by
      unfold checkedSub at h
      split at h <;> simp_all
    refine ⟨hval, ?_, ?_⟩
    · intro hn
      constructor
      · intro hout
        rw [sub_some ty a b del h, if_pos ⟨hn, hout⟩]
      · intro hlo hhi
        rw [sub_some ty a b del h, if_neg (by omega)]
    · intro hn
      rw [sub_some ty a b del h, if_neg (by omega)]

/-- Witness for C5: `i8` at addresses `300` and `0` takes the conversion
branch with the out-of-range difference `300`. -/
theorem C5_witness :
    Delta.sub i8 300 0 = .error ⟨.Conversion 300⟩ :=
  (((C5_sub_algorithm i8 (Or.inl rfl) 300 0).2 300 rfl).2.1
    (by norm_num [i8, wordBytes])).1 (Or.inr (by norm_num [i8]))

/-- C6: the width bounds are inclusive — when the native-word difference is
exactly `min_value` or `max_value` of a narrower-than-native width the
checked subtraction succeeds, and at `min_value - 1` or `max_value + 1` it
fails with a conversion-overflow error. -/
theorem C6_range_boundary (ty : IntTy) (hty : ty = i8 ∨ ty = i16 ∨ ty = i32)
    (a b : Nat) (del : Int) (h : checkedSub (asIsize a) (asIsize b) = some del) :
    ((del = ty.min ∨ del = ty.max) → Delta.sub ty a b = .ok del) ∧
    ((del = ty.min - 1 ∨ del = ty.max + 1) →
      Delta.sub ty a b = .error ⟨.Conversion del⟩) := by
  constructor
  · intro hdel
    rw [sub_some ty a b del h, if_neg ?_]
    rcases hty with rfl | rfl | rfl <;>
      simp only [i8, i16, i32, wordBytes] at hdel ⊢ <;> omega
  · intro hdel
    rw [sub_some ty a b del h, if_pos ?_]
    rcases hty with rfl | rfl | rfl <;>
      simp only [i8, i16, i32, wordBytes] at hdel ⊢ <;> omega

/-- Witness for C6: for `i8`, a difference of exactly `127` succeeds and a
difference of `128` fails with conversion overflow. -/
theorem C6_witness :
    Delta.sub i8 127 0 = .ok 127 ∧
    Delta.sub i8 128 0 = .error ⟨.Conversion 128⟩ :=
  ⟨(C6_range_boundary i8 (Or.inl rfl) 127 0 127 rfl).1
    (Or.inr (by norm_num [i8])),
   (C6_range_boundary i8 (Or.inl rfl) 128 0 128 rfl).2
    (Or.inr (by norm_num [i8]))⟩

/-- C7: the non-zero variant rejects an exactly-zero native-word difference
with `InvalidNonZero`, and agrees with the zeroable variant of the same width
whenever the difference is not exactly zero (including native-word overflow,
where both produce the `Sub` error). -/
theorem C7_nonzero_sub (ty : IntTy)
    (hty : ty = i8 ∨ ty = i16 ∨ ty = i32 ∨ ty = i64 ∨ ty = i128 ∨ ty = isize)
    (a b : Nat) :
    (checkedSub (asIsize a) (asIsize b) = some 0 →
      Delta.subNonZero ty a b = .error ⟨.InvalidNonZero⟩) ∧
    (∀ del : Int, checkedSub (asIsize a) (asIsize b) = some del → del ≠ 0 →
      Delta.subNonZero ty a b = Delta.sub ty a b) ∧
    (checkedSub (asIsize a) (asIsize b) = none →
      Delta.subNonZero ty a b = Delta.sub ty a b) := by
  clear hty
  refine ⟨?_, ?_, ?_⟩
  · intro h
    rw [subNonZero_some ty a b 0 h, if_pos rfl]
  · intro del h hne
    rw [subNonZero_some ty a b del h, if_neg hne, sub_some ty a b del h]
  · intro h
    rw [subNonZero_none ty a b h, sub_none ty a b h]

/-- Witness for C7: coinciding addresses give `InvalidNonZero` for
`NonZeroI8`, and a non-zero difference agrees with the zeroable `i8`. -/
theorem C7_witness :
    Delta.subNonZero i8 5 5 = .error ⟨.InvalidNonZero⟩ ∧
    Delta.subNonZero i8 9 5 = Delta.sub i8 9 5 :=
  ⟨(C7_nonzero_sub i8 (Or.inl rfl) 5 5).1 rfl,
   (C7_nonzero_sub i8 (Or.inl rfl) 9 5).2.1 4 rfl (by norm_num)⟩

/-- C8: `PartialEq` on `RelPtr` compares the storage addresses of the two
compared values (`ptr::eq`), so a `RelPtr` reference equals exactly the
references at the same address — every `RelPtr` equals itself, while a clone
stored at a different address compares unequal even though `clone` copies the
offset and descriptor fields verbatim. -/
theorem C8_eq_by_address (D : Type) (a b : Nat) (p q : RelPtr D) :
    (RelPtr.eq (a, p) (b, q) = true ↔ a = b) ∧
    RelPtr.eq (a, p) (a, p) = true ∧
    RelPtr.clone p = p ∧
    (a ≠ b → RelPtr.eq (a, p) (b, RelPtr.clone p) = false) := by
  unfold RelPtr.eq RelPtr.clone
  refine ⟨?_, ?_, rfl, ?_⟩
  · simp
  · simp
  · intro h
    simpa using h

/-- Witness for C8: at addresses `0` and `1`, a clone with identical fields
compares unequal to the original. -/
theorem C8_witness :
    RelPtr.eq (0, RelPtr.mk 4 (0 : Nat)) (1, RelPtr.clone (RelPtr.mk 4 0)) = false :=
  (C8_eq_by_address Nat 0 1 ⟨4, 0⟩ ⟨4, 0⟩).2.2.2 (by norm_num)

/-- C9: the concrete `i8` scenario — a pointer stored at `A` set to a pointee
at `A + 100` succeeds with stored offset `100` and dereferences to `A + 100`;
set to a pointee at `A + 200` it fails with conversion overflow and the
pointer remains null. -/
theorem C9_concrete_i8 (A : Nat) (hA : A + 200 < 2 ^ 63) :
    RelPtr.set i8 (RelPtr.null : RelPtr Unit) A (A + 100) () =
      (⟨100, ()⟩, Except.ok ()) ∧
    ((RelPtr.mk 100 () : RelPtr Unit).as_raw_unchecked A).1 = A + 100 ∧
    RelPtr.set i8 (RelPtr.null : RelPtr Unit) A (A + 200) () =
      ((RelPtr.null : RelPtr Unit), Except.error ⟨.Conversion 200⟩) ∧
    (RelPtr.null : RelPtr Unit).is_null = true := by
  have hc100 : checkedSub (asIsize (A + 100)) (asIsize A) = some 100 := by
    rw [checkedSub_small (A + 100) A (by omega) (by omega)]
    congr 1
    push_cast
    ring
  have hc200 : checkedSub (asIsize (A + 200)) (asIsize A) = some 200 := by
    rw [checkedSub_small (A + 200) A (by omega) (by omega)]
    congr 1
    push_cast
    ring
  have h100 : Delta.sub i8 (A + 100) A = .ok 100 := by
    rw [sub_some i8 (A + 100) A 100 hc100, if_neg ?_]
    simp only [i8, wordBytes]
    omega
  have h200 : Delta.sub i8 (A + 200) A = .error ⟨.Conversion 200⟩ := by
    rw [sub_some i8 (A + 200) A 200 hc200, if_pos ?_]
    simp only [i8, wordBytes]
    omega
  refine ⟨?_, ?_, ?_, rfl⟩
  · unfold RelPtr.set
    rw [h100]
  · unfold RelPtr.as_raw_unchecked Delta.add
    simp only
    omega
  · unfold RelPtr.set
    rw [h200]

/-- Witness for C9 at `A = 0`. -/
theorem C9_witness :
    RelPtr.set i8 (RelPtr.null : RelPtr Unit) 0 100 () =
      (⟨100, ()⟩, Except.ok ()) ∧
    ((RelPtr.mk 100 () : RelPtr Unit).as_raw_unchecked 0).1 = 100 ∧
    RelPtr.set i8 (RelPtr.null : RelPtr Unit) 0 200 () =
      ((RelPtr.null : RelPtr Unit), Except.error ⟨.Conversion 200⟩) ∧
    (RelPtr.null : RelPtr Unit).is_null = true :=
  C9_concrete_i8 0 (by norm_num)

/-- C10: with a zeroable offset type, setting a pointee whose address equals
the pointer's own storage address succeeds (the checked subtraction returns
`Ok(0)` with no zero rejection) and stores offset `0`, the null sentinel — so
`is_null()` then holds and the checked dereference path yields `none` even
though `set` reported success. -/
theorem C10_self_coincident (ty : IntTy)
    (hty : ty = i8 ∨ ty = i16 ∨ ty = i32 ∨ ty = i64 ∨ ty = i128 ∨ ty = isize)
    (D : Type) [Inhabited D] (p : RelPtr D) (A : Nat) (m : D) :
    Delta.sub ty A A = .ok 0 ∧
    RelPtr.set ty p A A m = (⟨0, m⟩, Except.ok ()) ∧
    (RelPtr.mk 0 m : RelPtr D).is_null = true ∧
    (RelPtr.mk 0 m : RelPtr D).as_ref A = none := by
  have hc : checkedSub (asIsize A) (asIsize A) = some 0 := by
    unfold checkedSub isizeMin isizeMax
    rw [sub_self]
    norm_num
  have hsub : Delta.sub ty A A = .ok 0 := by
    rw [sub_some ty A A 0 hc, if_neg ?_]
    rcases hty with rfl | rfl | rfl | rfl | rfl | rfl <;>
      simp only [i8, i16, i32, i64, i128, isize, wordBytes, isizeMin, isizeMax] <;>
      omega
  refine ⟨hsub, ?_, rfl, ?_⟩
  · unfold RelPtr.set
    rw [hsub]
  · simp [RelPtr.as_ref, RelPtr.as_raw, RelPtr.is_null, NULL]

/-- Witness for C10 at `ty = i8`, a pointer stored at address `3` with prior
state `⟨7, 7⟩` and a pointee descriptor `5`. -/
theorem C10_witness :
    Delta.sub i8 3 3 = .ok 0 ∧
    RelPtr.set i8 (RelPtr.mk 7 (7 : Nat)) 3 3 5 = (⟨0, 5⟩, Except.ok ()) ∧
    (RelPtr.mk 0 (5 : Nat)).is_null = true ∧
    (RelPtr.mk 0 (5 : Nat)).as_ref 3 = none :=
  C10_self_coincident i8 (Or.inl rfl) Nat ⟨7, 7⟩ 3 5

end RelPtrSpec
